import Mathlib

/-!
Verification of the MXNet C API marshalling layer (`src/c_api.cc`).

The development shallowly embeds the data model and the operations of the
C API file: the tensor-list save/load wire format (`MXNArrayListSave`,
`MXNArrayListLoad`), the accessor functions on tensor handles, the
executor-bind gradient-request logic, the shape-inference result
marshalling, and the `API_BEGIN`/`API_END` error-reporting discipline.

Byte streams are `List Nat` with each byte below 256; machine integers are
`Nat` with explicit bounds where overflow matters.  Fallible parsing
returns `Option`/`Except`.
-/

namespace MXNet

/-! ## Byte-stream primitives

`dmlc::Stream` writes fixed-width integers by copying their memory
(little-endian on the supported targets) and reads them back the same way.
We model a `w`-byte little-endian write and read over `List Nat`.
-/

/-- Write a natural number as `w` little-endian bytes (truncating to `w` bytes,
as the C `memcpy` of a fixed-width integer does). -/
def writeBytesLE : Nat → Nat → List Nat
  | 0, _ => []
  | w + 1, n => n % 256 :: writeBytesLE w (n / 256)

/-- Read `w` little-endian bytes from the front of a stream; `none` when the
stream is shorter than `w` bytes (a truncated read). -/
def readBytesLE : Nat → List Nat → Option (Nat × List Nat)
  | 0, bs => some (0, bs)
  | _ + 1, [] => none
  | w + 1, b :: bs =>
    match readBytesLE w bs with
    | none => none
    | some (n, rest) => some (b + 256 * n, rest)

/-- Read a raw run of `k` bytes (used for string payloads). -/
def readRaw (k : Nat) (bs : List Nat) : Option (List Nat × List Nat) :=
  if k ≤ bs.length then some (bs.take k, bs.drop k) else none

/-- Read `k` consecutive `w`-byte little-endian integers. -/
def readNats (w : Nat) : Nat → List Nat → Option (List Nat × List Nat)
  | 0, bs => some ([], bs)
  | k + 1, bs =>
    match readBytesLE w bs with
    | none => none
    | some (n, bs₁) =>
      match readNats w k bs₁ with
      | none => none
      | some (ns, rest) => some (n :: ns, rest)

theorem writeBytesLE_length (w n : Nat) : (writeBytesLE w n).length = w := by
  induction w generalizing n with
  | zero => rfl
  | succ w ih => simp [writeBytesLE, ih]

theorem readBytesLE_writeBytesLE (w : Nat) (n : Nat) (rest : List Nat)
    (h : n < 256 ^ w) :
    readBytesLE w (writeBytesLE w n ++ rest) = some (n, rest) := by
  induction w generalizing n with
  | zero =>
    interval_cases n
    rfl
  | succ w ih =>
    have hdiv : n / 256 < 256 ^ w := by
      rw [Nat.div_lt_iff_lt_mul (by norm_num)]
      calc n < 256 ^ (w + 1) := h
        _ = 256 ^ w * 256 := pow_succ 256 w
    have hmd : n % 256 + 256 * (n / 256) = n := Nat.mod_add_div n 256
    simp [writeBytesLE, readBytesLE, ih (n / 256) hdiv, hmd]

theorem readBytesLE_none_of_short (w : Nat) (bs : List Nat)
    (h : bs.length < w) : readBytesLE w bs = none := by
  induction w generalizing bs with
  | zero => omega
  | succ w ih =>
    cases bs with
    | nil => rfl
    | cons b bs =>
      simp only [List.length_cons] at h
      simp [readBytesLE, ih bs (by omega)]

theorem readBytesLE_length (w : Nat) (bs : List Nat) (n : Nat) (rest : List Nat)
    (h : readBytesLE w bs = some (n, rest)) : bs.length = w + rest.length := by
  induction w generalizing bs n with
  | zero =>
    simp only [readBytesLE, Option.some.injEq, Prod.mk.injEq] at h
    simp [h.2]
  | succ w ih =>
    cases bs with
    | nil => simp [readBytesLE] at h
    | cons b bs =>
      simp only [readBytesLE] at h
      cases hr : readBytesLE w bs with
      | none => rw [hr] at h; simp at h
      | some p =>
        obtain ⟨m, tail⟩ := p
        rw [hr] at h
        simp only [Option.some.injEq, Prod.mk.injEq] at h
        have := ih bs m (by rw [hr, h.2])
        simp only [List.length_cons, this]
        omega

theorem readRaw_append (xs rest : List Nat) :
    readRaw xs.length (xs ++ rest) = some (xs, rest) := by
  simp [readRaw, List.take_left, List.drop_left]

theorem readNats_append (w : Nat) (ns : List Nat) (rest : List Nat)
    (h : ∀ n ∈ ns, n < 256 ^ w) :
    readNats w ns.length ((ns.map (writeBytesLE w)).flatten ++ rest) =
      some (ns, rest) := by
  induction ns with
  | nil => rfl
  | cons n ns ih =>
    simp only [List.map_cons, List.flatten_cons, List.length_cons, List.append_assoc]
    simp only [readNats,
      readBytesLE_writeBytesLE w n _ (h n (List.mem_cons_self n ns)),
      ih (fun m hm => h m (List.mem_cons_of_mem n hm))]

/-! ## Data model

`TShape`, `Context` and the payload of an `NArray` (`mxnet/narray.h`,
`mxnet/base.h`; headers not in the repository snapshot, fields taken from
their use in `c_api.cc` and the spec's data model).  An `NArray` handle may
be in the "none" state — modelled as `Option NArrayData`.  Elements are
fixed-width 4-byte values; we keep their bit patterns as `Nat`, which is
what byte-copying serialization preserves.
-/

/-- A tensor shape: an ordered list of dimension sizes. -/
structure TShape where
  dims : List Nat
deriving DecidableEq

/-- A device context: device-kind mask and device index. -/
structure Context where
  dev_mask : Nat
  dev_id : Nat
deriving DecidableEq

/-- The payload of a non-"none" tensor handle: shape, context, and the raw
4-byte element values of its buffer. -/
structure NArrayData where
  shape : TShape
  ctx : Context
  elems : List Nat
deriving DecidableEq

/-- A tensor handle: either the "none" state or a payload. -/
abbrev NArray := Option NArrayData

/-- Well-formedness of a tensor payload as produced by the real runtime:
all serialized fields fit their wire widths and the buffer holds exactly
one element per point of the shape. -/
def NArrayData.wf (a : NArrayData) : Prop :=
  a.shape.dims.length < 256 ^ 4 ∧
  (∀ d ∈ a.shape.dims, d < 256 ^ 4) ∧
  a.ctx.dev_mask < 256 ^ 4 ∧
  a.ctx.dev_id < 256 ^ 4 ∧
  (∀ e ∈ a.elems, e < 256 ^ 4) ∧
  a.elems.length = a.shape.dims.prod

/-! ## Single-record serialization

Modelled from the spec: `NArray::Save`/`NArray::Load` and the
`dmlc::Stream` vector/string framing are not in the repository snapshot
(only `c_api.cc` is).  The spec fixes the single-tensor record as: shape
(4-byte ndim, then ndim 4-byte dimension values), context (4-byte device
kind, 4-byte device index), then the row-major element buffer whose length
is the product of the dimensions; a serialized list is a 8-byte element
count followed by the elements back to back, and a serialized string is an
8-byte length followed by its raw bytes.
-/

/-- Serialize a shape: 4-byte ndim, then the 4-byte dimension values. -/
def saveShape (s : TShape) : List Nat :=
  writeBytesLE 4 s.dims.length ++ (s.dims.map (writeBytesLE 4)).flatten

/-- Serialize a context: 4-byte device kind, 4-byte device index. -/
def saveContext (c : Context) : List Nat :=
  writeBytesLE 4 c.dev_mask ++ writeBytesLE 4 c.dev_id

/-- Serialize one tensor record: shape, context, element buffer. -/
def saveNArray (a : NArrayData) : List Nat :=
  saveShape a.shape ++ saveContext a.ctx ++ (a.elems.map (writeBytesLE 4)).flatten

/-- Serialize a name (raw bytes) with its 8-byte length prefix. -/
def saveName (n : List Nat) : List Nat :=
  writeBytesLE 8 n.length ++ n

/-- Serialize a list of tensor records with its 8-byte count prefix. -/
def saveNArrayVec (ds : List NArrayData) : List Nat :=
  writeBytesLE 8 ds.length ++ (ds.map saveNArray).flatten

/-- Serialize a list of names with its 8-byte count prefix. -/
def saveNameVec (ns : List (List Nat)) : List Nat :=
  writeBytesLE 8 ns.length ++ (ns.map saveName).flatten

/-- Parse a shape: read ndim, then that many dimension values. -/
def loadShape (bs : List Nat) : Option (TShape × List Nat) :=
  match readBytesLE 4 bs with
  | none => none
  | some (ndim, bs₁) =>
    match readNats 4 ndim bs₁ with
    | none => none
    | some (dims, rest) => some (⟨dims⟩, rest)

/-- Parse a context: device kind then device index. -/
def loadContext (bs : List Nat) : Option (Context × List Nat) :=
  match readBytesLE 4 bs with
  | none => none
  | some (mask, bs₁) =>
    match readBytesLE 4 bs₁ with
    | none => none
    | some (id, rest) => some (⟨mask, id⟩, rest)

/-- Parse one tensor record; the element count is the product of the parsed
dimensions. -/
def loadNArray (bs : List Nat) : Option (NArrayData × List Nat) :=
  match loadShape bs with
  | none => none
  | some (s, bs₁) =>
    match loadContext bs₁ with
    | none => none
    | some (c, bs₂) =>
      match readNats 4 s.dims.prod bs₂ with
      | none => none
      | some (es, rest) => some (⟨s, c, es⟩, rest)

/-- Parse `k` consecutive tensor records. -/
def loadNArrays : Nat → List Nat → Option (List NArrayData × List Nat)
  | 0, bs => some ([], bs)
  | k + 1, bs =>
    match loadNArray bs with
    | none => none
    | some (d, bs₁) =>
      match loadNArrays k bs₁ with
      | none => none
      | some (ds, rest) => some (d :: ds, rest)

/-- Parse a counted list of tensor records. -/
def loadNArrayVec (bs : List Nat) : Option (List NArrayData × List Nat) :=
  match readBytesLE 8 bs with
  | none => none
  | some (k, bs₁) => loadNArrays k bs₁

/-- Parse one length-prefixed name. -/
def loadName (bs : List Nat) : Option (List Nat × List Nat) :=
  match readBytesLE 8 bs with
  | none => none
  | some (len, bs₁) => readRaw len bs₁

/-- Parse `k` consecutive length-prefixed names. -/
def loadNames : Nat → List Nat → Option (List (List Nat) × List Nat)
  | 0, bs => some ([], bs)
  | k + 1, bs =>
    match loadName bs with
    | none => none
    | some (n, bs₁) =>
      match loadNames k bs₁ with
      | none => none
      | some (ns, rest) => some (n :: ns, rest)

/-- Parse a counted list of names. -/
def loadNameVec (bs : List Nat) : Option (List (List Nat) × List Nat) :=
  match readBytesLE 8 bs with
  | none => none
  | some (k, bs₁) => loadNames k bs₁

/-! ## `MXNArrayListSave` / `MXNArrayListLoad` (`c_api.cc`, lines 266–332) -/

/-- The 8-byte magic header of a tensor-list file (`kMXAPINArrayListMagic`). -/
def kMXAPINArrayListMagic : Nat := 0x112

/-- The error message of every `CHECK` in `MXNArrayListLoad`. -/
def invalidFormatMsg : String := "Invalid NArray file format"

/-- The name list built by `MXNArrayListSave`: empty when `keys == nullptr`,
otherwise `names.resize(num_args); names[i] = keys[i]` — one entry per
saved tensor, taken from the key array. -/
def listSaveNames (args : List NArrayData) (keys : Option (List (List Nat))) :
    List (List Nat) :=
  match keys with
  | none => []
  | some ks => (List.range args.length).map (fun i => ks.getD i [])

/-- The bytes `MXNArrayListSave` writes: the 8-byte magic, an 8-byte zero
reserved field, the serialized tensor list, then the serialized name list. -/
def mxnArrayListSave (args : List NArrayData) (keys : Option (List (List Nat))) :
    List Nat :=
  writeBytesLE 8 kMXAPINArrayListMagic ++ writeBytesLE 8 0 ++
    saveNArrayVec args ++ saveNameVec (listSaveNames args keys)

/-- `MXNArrayListLoad` on a byte stream: read the header, read the reserved
field, check the magic, parse the tensor list, parse the name list, and
check that the name count is zero or the tensor count; each `CHECK` failure
raises a `dmlc::Error` with the format message. -/
def mxnArrayListLoad (bs : List Nat) :
    Except String (List NArrayData × List (List Nat)) :=
  match readBytesLE 8 bs with
  | none => .error invalidFormatMsg
  | some (header, bs₁) =>
    match readBytesLE 8 bs₁ with
    | none => .error invalidFormatMsg
    | some (_reserved, bs₂) =>
      if header = kMXAPINArrayListMagic then
        match loadNArrayVec bs₂ with
        | none => .error invalidFormatMsg
        | some (data, bs₃) =>
          match loadNameVec bs₃ with
          | none => .error invalidFormatMsg
          | some (names, _) =>
            if names.length = 0 ∨ names.length = data.length then
              .ok (data, names)
            else .error invalidFormatMsg
      else .error invalidFormatMsg

/-! ## Round-trip lemmas for the serializers -/

theorem loadShape_saveShape (s : TShape) (rest : List Nat)
    (hlen : s.dims.length < 256 ^ 4) (hd : ∀ d ∈ s.dims, d < 256 ^ 4) :
    loadShape (saveShape s ++ rest) = some (s, rest) := by
  simp only [loadShape, saveShape, List.append_assoc,
    readBytesLE_writeBytesLE 4 s.dims.length _ hlen,
    readNats_append 4 s.dims rest hd]

theorem loadContext_saveContext (c : Context) (rest : List Nat)
    (hm : c.dev_mask < 256 ^ 4) (hi : c.dev_id < 256 ^ 4) :
    loadContext (saveContext c ++ rest) = some (c, rest) := by
  simp only [loadContext, saveContext, List.append_assoc,
    readBytesLE_writeBytesLE 4 c.dev_mask _ hm,
    readBytesLE_writeBytesLE 4 c.dev_id _ hi]

theorem loadNArray_saveNArray (a : NArrayData) (rest : List Nat)
    (hwf : a.wf) : loadNArray (saveNArray a ++ rest) = some (a, rest) := by
  obtain ⟨h1, h2, h3, h4, h5, h6⟩ := hwf
  have hes : readNats 4 a.shape.dims.prod
      ((a.elems.map (writeBytesLE 4)).flatten ++ rest) = some (a.elems, rest) := by
    rw [← h6]
    exact readNats_append 4 a.elems rest h5
  simp only [loadNArray, saveNArray, List.append_assoc,
    loadShape_saveShape a.shape _ h1 h2,
    loadContext_saveContext a.ctx _ h3 h4, hes]

theorem loadNArrays_append (ds : List NArrayData) (rest : List Nat)
    (hwf : ∀ a ∈ ds, a.wf) :
    loadNArrays ds.length ((ds.map saveNArray).flatten ++ rest) =
      some (ds, rest) := by
  induction ds with
  | nil => rfl
  | cons d ds ih =>
    simp only [List.map_cons, List.flatten_cons, List.length_cons,
      List.append_assoc]
    simp only [loadNArrays,
      loadNArray_saveNArray d _ (hwf d (List.mem_cons_self d ds)),
      ih (fun a ha => hwf a (List.mem_cons_of_mem d ha))]

theorem loadNArrayVec_saveNArrayVec (ds : List NArrayData) (rest : List Nat)
    (hwf : ∀ a ∈ ds, a.wf) (hlen : ds.length < 256 ^ 8) :
    loadNArrayVec (saveNArrayVec ds ++ rest) = some (ds, rest) := by
  simp only [loadNArrayVec, saveNArrayVec, List.append_assoc,
    readBytesLE_writeBytesLE 8 ds.length _ hlen,
    loadNArrays_append ds rest hwf]

theorem loadName_saveName (n : List Nat) (rest : List Nat)
    (hlen : n.length < 256 ^ 8) :
    loadName (saveName n ++ rest) = some (n, rest) := by
  simp only [loadName, saveName, List.append_assoc,
    readBytesLE_writeBytesLE 8 n.length _ hlen, readRaw_append]

theorem loadNames_append (ns : List (List Nat)) (rest : List Nat)
    (hlen : ∀ n ∈ ns, n.length < 256 ^ 8) :
    loadNames ns.length ((ns.map saveName).flatten ++ rest) = some (ns, rest) := by
  induction ns with
  | nil => rfl
  | cons n ns ih =>
    simp only [List.map_cons, List.flatten_cons, List.length_cons,
      List.append_assoc]
    simp only [loadNames,
      loadName_saveName n _ (hlen n (List.mem_cons_self n ns)),
      ih (fun m hm => hlen m (List.mem_cons_of_mem n hm))]

theorem loadNameVec_saveNameVec (ns : List (List Nat)) (rest : List Nat)
    (hlen : ∀ n ∈ ns, n.length < 256 ^ 8) (hcount : ns.length < 256 ^ 8) :
    loadNameVec (saveNameVec ns ++ rest) = some (ns, rest) := by
  simp only [loadNameVec, saveNameVec, List.append_assoc,
    readBytesLE_writeBytesLE 8 ns.length _ hcount,
    loadNames_append ns rest hlen]

/-! ## NArray accessors (`c_api.cc`, lines 346–391)

Each accessor is modelled as a function from the handle and the prior
values of its out-parameters to the return code and the final values of
those out-parameters (an out-parameter the C code does not assign keeps its
prior value).  A `CHECK` failure is caught by `API_END`, which returns -1.
-/

/-- The CPU device mask `cpu::kDevMask` (from `mshadow`, not in the
repository snapshot; its exact value is irrelevant to the claims). -/
def cpuDevMask : Nat := 1

/-- A data pointer as seen through `MXNArrayGetData`'s out-parameter. -/
inductive DataPtr where
  | null : DataPtr
  | ptr (elems : List Nat) : DataPtr
deriving DecidableEq

/-- `MXNArrayGetShape`: on a non-none handle write ndim and the dimension
data; on a none handle write `*out_dim = 0` and leave `*out_pdata` alone
(`pdata₀` is the out-parameter's prior value; `*out_dim` is written on both
paths, so its prior value does not appear). -/
def mxnArrayGetShape (a : NArray) (pdata₀ : Option (List Nat)) :
    Int × Nat × Option (List Nat) :=
  match a with
  | some d => (0, d.shape.dims.length, some d.shape.dims)
  | none => (0, 0, pdata₀)

/-- `MXNArrayGetContext`: on a non-none handle write the context's device
mask and index; on a none handle write zeros for both. -/
def mxnArrayGetContext (a : NArray) : Int × Nat × Nat :=
  match a with
  | some d => (0, d.ctx.dev_mask, d.ctx.dev_id)
  | none => (0, 0, 0)

/-- `MXNArrayGetData`: on a none handle write a null pointer and succeed;
otherwise `CHECK` that the context is CPU and the blob is contiguous
(`contiguous` stands for `TBlob::CheckContiguous`, whose stride data is
outside the snapshot), failing with -1 and an untouched out-parameter, and
on success write the data pointer. -/
def mxnArrayGetData (a : NArray) (contiguous : Bool) (p₀ : DataPtr) :
    Int × DataPtr :=
  match a with
  | none => (0, .null)
  | some d =>
    if d.ctx.dev_mask = cpuDevMask then
      if contiguous then (0, .ptr d.elems) else (-1, p₀)
    else (-1, p₀)

/-! ## `MXExecutorBind` gradient-request marshalling (`c_api.cc`, 754–765)

The loop that builds `arg_grad_vec` and `grad_req_vec`: for each argument
position, a null gradient-store entry contributes an empty `NArray` and
`kNullOp`, and a non-null entry contributes its array and the caller's
request-kind value.
-/

/-- `OpReqType::kNullOp` — the null-op ("suppress") gradient request. -/
def kNullOp : Nat := 0

/-- The `arg_grad_vec` built by the bind loop. -/
def bindArgGradVec (arg_grad : List (Option NArrayData)) : List NArray :=
  arg_grad.map (fun g => match g with | none => (none : NArray) | some a => some a)

/-- The `grad_req_vec` built by the bind loop. -/
def bindGradReqVec (arg_grad : List (Option NArrayData)) (req : List Nat) :
    List Nat :=
  (arg_grad.zip req).map (fun p => match p.1 with | none => kNullOp | some _ => p.2)

/-! ## `MXSymbolInferShape` result marshalling (`c_api.cc`, 638–693)

The wrapper calls `Symbol::InferShape` (outside the snapshot; passed here
as the abstract `infer` argument, which returns the completion flag and
the inferred argument/output/auxiliary shapes) and then marshals the
result: only when inference reports completion are the shape
out-parameters assigned; otherwise only `*complete` is set to 0 and the
shape out-parameters keep their prior values.
-/

/-- The caller-visible out-parameters of `MXSymbolInferShape`; `none` for a
pointer the call has not assigned. -/
structure InferShapeOuts where
  in_shapes : Option (List TShape)
  out_shapes : Option (List TShape)
  aux_shapes : Option (List TShape)
  complete : Option Nat
deriving DecidableEq

/-- `MXSymbolInferShape` given the behavior of `Symbol::InferShape` on the
supplied partial shapes. -/
def mxSymbolInferShape
    (infer : List TShape → Bool × List TShape × List TShape × List TShape)
    (argShapes : List TShape) (prior : InferShapeOuts) : Int × InferShapeOuts :=
  match infer argShapes with
  | (succ, arg, outs, aux) =>
    if succ then (0, ⟨some arg, some outs, some aux, some 1⟩)
    else (0, { prior with complete := some 0 })

/-! ## Handle-creating wrappers and error cleanup (`c_api.cc`, 121–131,
211–223, 482–524)

Heap allocations are modelled by an allocator handing out fresh
identifiers; `API_END_HANDLE_ERROR` runs its finalizer (the `delete`s)
before returning -1, and `*out` is assigned only on the success path.
-/

/-- A heap: the next fresh identifier and the identifiers currently live. -/
structure Heap where
  next : Nat
  live : List Nat
deriving DecidableEq

/-- Freshness: every live identifier was handed out before `next`. -/
def Heap.wf (h : Heap) : Prop := ∀ p ∈ h.live, p < h.next

/-- Allocate a fresh object (`new`). -/
def Heap.alloc (h : Heap) : Nat × Heap :=
  (h.next, ⟨h.next + 1, h.next :: h.live⟩)

/-- Free an object (`delete`). -/
def Heap.free (h : Heap) (p : Nat) : Heap :=
  ⟨h.next, h.live.erase p⟩

/-- `MXNArrayLoadFromRawBytes`: allocate the `NArray`, run `Load` (its
outcome is the abstract `loadOk`), and on failure delete the allocation
and return -1 without touching `*out`. -/
def mxnArrayLoadFromRawBytes (loadOk : Bool) (h : Heap) (out₀ : Option Nat) :
    Int × Option Nat × Heap :=
  match h.alloc with
  | (p, h₁) => if loadOk then (0, some p, h₁) else (-1, out₀, h₁.free p)

/-- `MXSymbolCreateAtomicSymbol`: allocate the `Symbol`, create the operator
(`e->body()`, a second allocation), run `Init` (outcome `initOk`), and on
failure delete both allocations and return -1 without touching `*out`. -/
def mxSymbolCreateAtomicSymbol (initOk : Bool) (h : Heap) (out₀ : Option Nat) :
    Int × Option Nat × Heap :=
  match h.alloc with
  | (s, h₁) =>
    match h₁.alloc with
    | (op, h₂) =>
      if initOk then (0, some s, h₂) else (-1, out₀, (h₂.free s).free op)

/-- `MXSymbolCreateVariable`: allocate the `Symbol`, run
`Symbol::CreateVariable` (outcome `bodyOk`), and on failure delete the
allocation and return -1 without touching `*out`. -/
def mxSymbolCreateVariable (bodyOk : Bool) (h : Heap) (out₀ : Option Nat) :
    Int × Option Nat × Heap :=
  match h.alloc with
  | (s, h₁) => if bodyOk then (0, some s, h₁) else (-1, out₀, h₁.free s)

/-- `MXSymbolCreateGroup`: allocate the `Symbol`, run `Symbol::CreateGroup`
over the member symbols (outcome `bodyOk`), and on failure delete the
allocation and return -1 without touching `*out`. -/
def mxSymbolCreateGroup (bodyOk : Bool) (h : Heap) (out₀ : Option Nat) :
    Int × Option Nat × Heap :=
  match h.alloc with
  | (s, h₁) => if bodyOk then (0, some s, h₁) else (-1, out₀, h₁.free s)

/-! ## `API_BEGIN`/`API_END` and last-error reporting (`c_api.cc`, 121–146) -/

/-- The thread-local entry; only the last-error slot matters here. -/
structure ThreadLocalEntry where
  last_error : String
deriving DecidableEq

/-- `MXGetLastError`: read the thread-local last-error string. -/
def mxGetLastError (tl : ThreadLocalEntry) : String := tl.last_error

/-- `MXHandleException`: store the exception's message in the thread-local
entry and return -1. -/
def mxHandleException (tl : ThreadLocalEntry) (msg : String) :
    Int × ThreadLocalEntry :=
  (-1, { tl with last_error := msg })

/-- The `API_BEGIN`/`API_END` bracket around a function body: a body that
completes returns 0 and leaves the thread-local entry alone; a body that
raises a `dmlc::Error` reaches the catch clause, which calls
`MXHandleException`. -/
def apiCall (body : Except String Unit) (tl : ThreadLocalEntry) :
    Int × ThreadLocalEntry :=
  match body with
  | .ok _ => (0, tl)
  | .error msg => mxHandleException tl msg

/-- Decidability of payload well-formedness, so concrete instances can be
checked by evaluation. -/
instance : DecidablePred NArrayData.wf := fun a => by
  unfold NArrayData.wf; infer_instance

/-! ## Behavior of `mxnArrayListLoad` (shared lemmas) -/

theorem mxnArrayListLoad_truncated (bs : List Nat) (h : bs.length < 16) :
    mxnArrayListLoad bs = .error invalidFormatMsg := by
  unfold mxnArrayListLoad
  cases h₁ : readBytesLE 8 bs with
  | none => rfl
  | some p =>
    obtain ⟨header, bs₁⟩ := p
    have hlen := readBytesLE_length 8 bs header bs₁ h₁
    have : readBytesLE 8 bs₁ = none :=
      readBytesLE_none_of_short 8 bs₁ (by omega)
    simp [this]

theorem mxnArrayListLoad_wrong_magic (hd r : Nat) (rest : List Nat)
    (hh : hd < 256 ^ 8) (hr : r < 256 ^ 8) (hne : hd ≠ kMXAPINArrayListMagic) :
    mxnArrayListLoad (writeBytesLE 8 hd ++ (writeBytesLE 8 r ++ rest)) =
      .error invalidFormatMsg := by
  simp only [mxnArrayListLoad, readBytesLE_writeBytesLE 8 hd _ hh,
    readBytesLE_writeBytesLE 8 r _ hr]
  simp [hne]

theorem mxnArrayListLoad_good_magic (r : Nat) (rest : List Nat)
    (hr : r < 256 ^ 8) :
    mxnArrayListLoad
        (writeBytesLE 8 kMXAPINArrayListMagic ++ (writeBytesLE 8 r ++ rest)) =
      (match loadNArrayVec rest with
      | none => .error invalidFormatMsg
      | some (data, bs₃) =>
        match loadNameVec bs₃ with
        | none => .error invalidFormatMsg
        | some (names, _) =>
          if names.length = 0 ∨ names.length = data.length then
            .ok (data, names)
          else .error invalidFormatMsg) := by
  simp only [mxnArrayListLoad,
    readBytesLE_writeBytesLE 8 kMXAPINArrayListMagic _ (by decide),
    readBytesLE_writeBytesLE 8 r _ hr, if_pos rfl]
  rw [if_pos trivial]

theorem mxnArrayListLoad_ok_inv (bs : List Nat) (d : List NArrayData)
    (ns : List (List Nat)) (h : mxnArrayListLoad bs = .ok (d, ns)) :
    (ns.length = 0 ∨ ns.length = d.length) ∧
    (∃ bs₁, readBytesLE 8 bs = some (kMXAPINArrayListMagic, bs₁)) := by
  unfold mxnArrayListLoad at h
  split at h
  · exact absurd h (by simp)
  next header bs₁ h₁ =>
    split at h
    · exact absurd h (by simp)
    next res bs₂ h₂ =>
      split at h
      · next hm =>
        subst hm
        split at h
        · exact absurd h (by simp)
        next data bs₃ h₃ =>
          split at h
          · exact absurd h (by simp)
          next names bs₄ h₄ =>
            split at h
            · next hc =>
              simp only [Except.ok.injEq, Prod.mk.injEq] at h
              refine ⟨?_, ⟨bs₁, h₁⟩⟩
              rw [← h.1, ← h.2]
              exact hc
            · exact absurd h (by simp)
      · exact absurd h (by simp)

/-! ## Claim theorems -/

/-- C1: for every save of a tensor-handle list, the bytes written are, in
order, an 8-byte magic field decoding to `0x112`, an 8-byte reserved field
decoding to zero, the serialized tensor list, and then the serialized name
list, whose length is the tensor count when keys are supplied and zero
when no keys are supplied. -/
theorem mxnArrayListSave_layout (args : List NArrayData)
    (keys : Option (List (List Nat))) :
    readBytesLE 8 (mxnArrayListSave args keys) =
      some (0x112, writeBytesLE 8 0 ++
        (saveNArrayVec args ++ saveNameVec (listSaveNames args keys))) ∧
    readBytesLE 8 (writeBytesLE 8 0 ++
        (saveNArrayVec args ++ saveNameVec (listSaveNames args keys))) =
      some (0, saveNArrayVec args ++ saveNameVec (listSaveNames args keys)) ∧
    (listSaveNames args keys).length =
      (match keys with | none => 0 | some _ => args.length) := by
  refine ⟨?_, ?_, ?_⟩
  · simp only [mxnArrayListSave, List.append_assoc]
    exact readBytesLE_writeBytesLE 8 kMXAPINArrayListMagic _ (by decide)
  · exact readBytesLE_writeBytesLE 8 0 _ (by decide)
  · cases keys with
    | none => rfl
    | some ks => simp [listSaveNames]

/-- C2: loading a tensor-handle list fails with the format error when the
stream is truncated before the 16 header bytes, when the magic field is
not `0x112`, when the tensor list or the name list cannot be parsed, or
when the parsed name count is neither zero nor the tensor count; it
succeeds exactly when all of these checks pass, and every success had a
`0x112` magic and a conforming name count. -/
theorem mxnArrayListLoad_format_checks :
    (∀ bs d ns, mxnArrayListLoad bs = .ok (d, ns) →
      (ns.length = 0 ∨ ns.length = d.length) ∧
      (∃ bs₁, readBytesLE 8 bs = some (kMXAPINArrayListMagic, bs₁))) ∧
    (∀ bs, bs.length < 16 → mxnArrayListLoad bs = .error invalidFormatMsg) ∧
    (∀ hd r rest, hd < 256 ^ 8 → r < 256 ^ 8 → hd ≠ 0x112 →
      mxnArrayListLoad (writeBytesLE 8 hd ++ (writeBytesLE 8 r ++ rest)) =
        .error invalidFormatMsg) ∧
    (∀ r rest, r < 256 ^ 8 → loadNArrayVec rest = none →
      mxnArrayListLoad (writeBytesLE 8 0x112 ++ (writeBytesLE 8 r ++ rest)) =
        .error invalidFormatMsg) ∧
    (∀ r rest d bs₃, r < 256 ^ 8 →
      loadNArrayVec rest = some (d, bs₃) → loadNameVec bs₃ = none →
      mxnArrayListLoad (writeBytesLE 8 0x112 ++ (writeBytesLE 8 r ++ rest)) =
        .error invalidFormatMsg) ∧
    (∀ r rest d bs₃ ns bs₄, r < 256 ^ 8 →
      loadNArrayVec rest = some (d, bs₃) → loadNameVec bs₃ = some (ns, bs₄) →
      ¬(ns.length = 0 ∨ ns.length = d.length) →
      mxnArrayListLoad (writeBytesLE 8 0x112 ++ (writeBytesLE 8 r ++ rest)) =
        .error invalidFormatMsg) ∧
    (∀ r rest d bs₃ ns bs₄, r < 256 ^ 8 →
      loadNArrayVec rest = some (d, bs₃) → loadNameVec bs₃ = some (ns, bs₄) →
      (ns.length = 0 ∨ ns.length = d.length) →
      mxnArrayListLoad (writeBytesLE 8 0x112 ++ (writeBytesLE 8 r ++ rest)) =
        .ok (d, ns)) := by
  refine ⟨fun bs d ns h => mxnArrayListLoad_ok_inv bs d ns h,
    mxnArrayListLoad_truncated,
    fun hd r rest hh hr hne => mxnArrayListLoad_wrong_magic hd r rest hh hr hne,
    ?_, ?_, ?_, ?_⟩
  · intro r rest hr h₃
    have e : (0x112 : Nat) = kMXAPINArrayListMagic := rfl
    rw [e, mxnArrayListLoad_good_magic r rest hr]
    simp only [h₃]
  · intro r rest d bs₃ hr h₃ h₄
    have e : (0x112 : Nat) = kMXAPINArrayListMagic := rfl
    rw [e, mxnArrayListLoad_good_magic r rest hr]
    simp only [h₃, h₄]
  · intro r rest d bs₃ ns bs₄ hr h₃ h₄ hc
    have e : (0x112 : Nat) = kMXAPINArrayListMagic := rfl
    rw [e, mxnArrayListLoad_good_magic r rest hr]
    simp only [h₃, h₄]
    rw [if_neg hc]
  · intro r rest d bs₃ ns bs₄ hr h₃ h₄ hc
    have e : (0x112 : Nat) = kMXAPINArrayListMagic := rfl
    rw [e, mxnArrayListLoad_good_magic r rest hr]
    simp only [h₃, h₄]
    rw [if_pos hc]

/-- C2 witness: a wrong-magic stream and a truncated stream are rejected
with the format error. -/
theorem mxnArrayListLoad_format_checks_witness :
    mxnArrayListLoad (writeBytesLE 8 5 ++ (writeBytesLE 8 0 ++ [1, 2, 3])) =
      .error invalidFormatMsg ∧
    mxnArrayListLoad [1, 2, 3] = .error invalidFormatMsg :=
  ⟨mxnArrayListLoad_format_checks.2.2.1 5 0 [1, 2, 3]
      (by decide) (by decide) (by decide),
    mxnArrayListLoad_format_checks.2.1 [1, 2, 3] (by decide)⟩

/-- C3: saving a well-formed tensor-handle list and loading the result
yields the same tensors (shapes, contexts and element values) and the same
names in the same order, and loading the saved stream with its magic field
replaced by any other value fails with the format error. -/
theorem mxnArrayListSave_roundtrip (args : List NArrayData)
    (keys : Option (List (List Nat)))
    (hwf : ∀ a ∈ args, a.wf) (hargs : args.length < 256 ^ 8)
    (hnames : ∀ n ∈ listSaveNames args keys, n.length < 256 ^ 8) :
    mxnArrayListLoad (mxnArrayListSave args keys) =
      .ok (args, listSaveNames args keys) ∧
    (∀ ks, keys = some ks → ks.length = args.length →
      listSaveNames args keys = ks) ∧
    (∀ m, m < 256 ^ 8 → m ≠ 0x112 →
      mxnArrayListLoad (writeBytesLE 8 m ++ (mxnArrayListSave args keys).drop 8) =
        .error invalidFormatMsg) := by
  have hcount : (listSaveNames args keys).length < 256 ^ 8 := by
    cases keys with
    | none => simp [listSaveNames]
    | some ks => simpa [listSaveNames] using hargs
  have hdrop : (mxnArrayListSave args keys).drop 8 =
      writeBytesLE 8 0 ++
        (saveNArrayVec args ++ saveNameVec (listSaveNames args keys)) := by
    simp only [mxnArrayListSave, List.append_assoc]
    rw [show (8 : Nat) = (writeBytesLE 8 kMXAPINArrayListMagic).length from
      (writeBytesLE_length 8 kMXAPINArrayListMagic).symm]
    exact List.drop_left _ _
  refine ⟨?_, ?_, ?_⟩
  · have : mxnArrayListSave args keys =
        writeBytesLE 8 kMXAPINArrayListMagic ++ (writeBytesLE 8 0 ++
          (saveNArrayVec args ++ saveNameVec (listSaveNames args keys))) := by
      simp [mxnArrayListSave]
    have hc : (listSaveNames args keys).length = 0 ∨
        (listSaveNames args keys).length = args.length := by
      cases keys with
      | none => left; rfl
      | some ks => right; simp [listSaveNames]
    rw [this, mxnArrayListLoad_good_magic 0 _ (by decide)]
    rw [show saveNArrayVec args ++ saveNameVec (listSaveNames args keys) =
      saveNArrayVec args ++ (saveNameVec (listSaveNames args keys) ++ []) from by simp]
    simp only [loadNArrayVec_saveNArrayVec args _ hwf hargs,
      loadNameVec_saveNameVec (listSaveNames args keys) [] hnames hcount]
    rw [if_pos hc]
  · intro ks hks hlen
    subst hks
    apply List.ext_getElem
    · simp [listSaveNames, hlen]
    · intro i h₁ h₂
      simp [listSaveNames, List.getD_eq_getElem?_getD, List.getElem?_eq_getElem h₂]
  · intro m hm hne
    rw [hdrop]
    exact mxnArrayListLoad_wrong_magic m 0 _ hm (by decide) hne

/-- C3 witness: a concrete list of three tensors with distinct shapes, two
named and one unnamed, round-trips, and corrupting the magic to `0x113`
is rejected. -/
theorem mxnArrayListSave_roundtrip_witness :
    (∀ a ∈ [(⟨⟨[1]⟩, ⟨1, 0⟩, [7]⟩ : NArrayData), ⟨⟨[2]⟩, ⟨1, 0⟩, [8, 9]⟩,
        ⟨⟨[1, 1]⟩, ⟨2, 1⟩, [10]⟩], a.wf) ∧
    mxnArrayListLoad (mxnArrayListSave
        [⟨⟨[1]⟩, ⟨1, 0⟩, [7]⟩, ⟨⟨[2]⟩, ⟨1, 0⟩, [8, 9]⟩, ⟨⟨[1, 1]⟩, ⟨2, 1⟩, [10]⟩]
        (some [[97], [98], []])) =
      .ok ([⟨⟨[1]⟩, ⟨1, 0⟩, [7]⟩, ⟨⟨[2]⟩, ⟨1, 0⟩, [8, 9]⟩,
        ⟨⟨[1, 1]⟩, ⟨2, 1⟩, [10]⟩], [[97], [98], []]) ∧
    mxnArrayListLoad (writeBytesLE 8 0x113 ++ (mxnArrayListSave
        [⟨⟨[1]⟩, ⟨1, 0⟩, [7]⟩, ⟨⟨[2]⟩, ⟨1, 0⟩, [8, 9]⟩, ⟨⟨[1, 1]⟩, ⟨2, 1⟩, [10]⟩]
        (some [[97], [98], []])).drop 8) = .error invalidFormatMsg := by
  have h := mxnArrayListSave_roundtrip
    [⟨⟨[1]⟩, ⟨1, 0⟩, [7]⟩, ⟨⟨[2]⟩, ⟨1, 0⟩, [8, 9]⟩, ⟨⟨[1, 1]⟩, ⟨2, 1⟩, [10]⟩]
    (some [[97], [98], []]) (by decide) (by decide) (by decide)
  refine ⟨by decide, ?_, h.2.2 0x113 (by decide) (by decide)⟩
  have hn : listSaveNames
      [(⟨⟨[1]⟩, ⟨1, 0⟩, [7]⟩ : NArrayData), ⟨⟨[2]⟩, ⟨1, 0⟩, [8, 9]⟩,
        ⟨⟨[1, 1]⟩, ⟨2, 1⟩, [10]⟩] (some [[97], [98], []]) =
      [[97], [98], []] := by decide
  rw [← hn]
  exact h.1

/-- C4 counterexample: an inference call that resolves a non-trivial
argument shape but does not reach completion leaves every shape
out-parameter untouched (here still unassigned) — the resolved subset is
not returned to the caller, only the completion flag is set to 0. -/
theorem mxSymbolInferShape_partial_not_returned :
    mxSymbolInferShape (fun _ => (false, [⟨[2]⟩], [⟨[2]⟩], [])) [⟨[]⟩]
        ⟨none, none, none, none⟩ =
      (0, ⟨none, none, none, some 0⟩) ∧
    (⟨none, none, none, some 0⟩ : InferShapeOuts).in_shapes ≠
      some [⟨[2]⟩] := by
  exact ⟨rfl, by decide⟩

/-- C4 (amended): the call reports via the completion flag whether all
shapes were fully resolved; the argument, output and auxiliary shapes are
written to the caller's out-parameters only when inference reports full
completion, and when it does not, only the completion flag is written and
the shape out-parameters keep their prior values. -/
theorem mxSymbolInferShape_marshalling
    (infer : List TShape → Bool × List TShape × List TShape × List TShape)
    (argShapes : List TShape) (prior : InferShapeOuts) :
    (mxSymbolInferShape infer argShapes prior).1 = 0 ∧
    (mxSymbolInferShape infer argShapes prior).2.complete =
      some (if (infer argShapes).1 then 1 else 0) ∧
    ((infer argShapes).1 = true →
      (mxSymbolInferShape infer argShapes prior).2 =
        ⟨some (infer argShapes).2.1, some (infer argShapes).2.2.1,
          some (infer argShapes).2.2.2, some 1⟩) ∧
    ((infer argShapes).1 = false →
      (mxSymbolInferShape infer argShapes prior).2 =
        { prior with complete := some 0 }) := by
  unfold mxSymbolInferShape
  rcases h : infer argShapes with ⟨succ, arg, outs, aux⟩
  cases succ <;> simp [h]

/-- C4 witness: the amended behavior at a concrete incomplete inference and
a concrete complete inference. -/
theorem mxSymbolInferShape_marshalling_witness :
    ((fun (_ : List TShape) => (false, [(⟨[2]⟩ : TShape)], [(⟨[2]⟩ : TShape)],
        ([] : List TShape))) [⟨[]⟩]).1 = false ∧
    (mxSymbolInferShape
        (fun _ => (false, [⟨[2]⟩], [⟨[2]⟩], [])) [⟨[]⟩]
        ⟨some [⟨[7]⟩], none, none, none⟩).2 =
      ⟨some [⟨[7]⟩], none, none, some 0⟩ :=
  ⟨rfl,
    (mxSymbolInferShape_marshalling (fun _ => (false, [⟨[2]⟩], [⟨[2]⟩], []))
      [⟨[]⟩] ⟨some [⟨[7]⟩], none, none, none⟩).2.2.2 rfl⟩

/-- C5: in the executor-bind loop, an argument position whose
gradient-store entry is absent is bound with the null-op ("suppress")
request kind and an empty gradient array, regardless of the caller's
request value at that position, while a present entry is bound with
exactly the caller's request value and its own array. -/
theorem mxExecutorBind_grad_req (gs : List (Option NArrayData)) (rs : List Nat)
    (i : Nat) (hi : i < gs.length) (hir : i < rs.length)
    (hiq : i < (bindGradReqVec gs rs).length)
    (hia : i < (bindArgGradVec gs).length) :
    (gs[i] = none → (bindGradReqVec gs rs)[i] = kNullOp ∧
      (bindArgGradVec gs)[i] = none) ∧
    (∀ a, gs[i] = some a → (bindGradReqVec gs rs)[i] = rs[i] ∧
      (bindArgGradVec gs)[i] = some a) := by
  constructor
  · intro hnone
    constructor
    · simp [bindGradReqVec, List.getElem_map, List.getElem_zip, hnone]
    · simp [bindArgGradVec, List.getElem_map, hnone]
  · intro a ha
    constructor
    · simp [bindGradReqVec, List.getElem_map, List.getElem_zip, ha]
    · simp [bindArgGradVec, List.getElem_map, ha]

/-- C5 witness: at a concrete bind with one absent and one present
gradient store, position 0 gets the null-op kind and position 1 the
caller's kind. -/
theorem mxExecutorBind_grad_req_witness :
    (bindGradReqVec [none, some ⟨⟨[1]⟩, ⟨1, 0⟩, [7]⟩] [3, 1])[0] = kNullOp ∧
    (bindGradReqVec [none, some ⟨⟨[1]⟩, ⟨1, 0⟩, [7]⟩] [3, 1])[1] = 1 :=
  ⟨((mxExecutorBind_grad_req [none, some ⟨⟨[1]⟩, ⟨1, 0⟩, [7]⟩] [3, 1] 0
      (by decide) (by decide) (by decide) (by decide)).1 rfl).1,
    ((mxExecutorBind_grad_req [none, some ⟨⟨[1]⟩, ⟨1, 0⟩, [7]⟩] [3, 1] 1
      (by decide) (by decide) (by decide) (by decide)).2
      ⟨⟨[1]⟩, ⟨1, 0⟩, [7]⟩ rfl).1⟩

/-- C6: when a handle-creating wrapper's body raises, the wrapper returns
-1, the caller's out-parameter keeps its prior value, and every object the
call allocated has been freed again (the live set is unchanged). -/
theorem handle_creators_error_no_effect (h : Heap) (out₀ : Option Nat) :
    ((mxnArrayLoadFromRawBytes false h out₀).1 = -1 ∧
      (mxnArrayLoadFromRawBytes false h out₀).2.1 = out₀ ∧
      (mxnArrayLoadFromRawBytes false h out₀).2.2.live = h.live) ∧
    ((mxSymbolCreateAtomicSymbol false h out₀).1 = -1 ∧
      (mxSymbolCreateAtomicSymbol false h out₀).2.1 = out₀ ∧
      (mxSymbolCreateAtomicSymbol false h out₀).2.2.live = h.live) ∧
    ((mxSymbolCreateVariable false h out₀).1 = -1 ∧
      (mxSymbolCreateVariable false h out₀).2.1 = out₀ ∧
      (mxSymbolCreateVariable false h out₀).2.2.live = h.live) ∧
    ((mxSymbolCreateGroup false h out₀).1 = -1 ∧
      (mxSymbolCreateGroup false h out₀).2.1 = out₀ ∧
      (mxSymbolCreateGroup false h out₀).2.2.live = h.live) := by
  refine ⟨⟨rfl, rfl, ?_⟩, ⟨rfl, rfl, ?_⟩, ⟨rfl, rfl, ?_⟩, ⟨rfl, rfl, ?_⟩⟩
  · simp [mxnArrayLoadFromRawBytes, Heap.alloc, Heap.free]
  · simp [mxSymbolCreateAtomicSymbol, Heap.alloc, Heap.free]
  · simp [mxSymbolCreateVariable, Heap.alloc, Heap.free]
  · simp [mxSymbolCreateGroup, Heap.alloc, Heap.free]

/-- C8: a body wrapped in `API_BEGIN`/`API_END` yields return code 0 when
it completes, and when it raises an error the wrapper returns -1 and
stores the error's message so that `MXGetLastError` on the same
thread-local entry returns exactly that message. -/
theorem apiCall_return_discipline (body : Except String Unit)
    (tl : ThreadLocalEntry) :
    (body = .ok () → apiCall body tl = (0, tl)) ∧
    (∀ msg, body = .error msg →
      (apiCall body tl).1 = -1 ∧
      mxGetLastError (apiCall body tl).2 = msg) := by
  constructor
  · intro hok; rw [hok]; rfl
  · intro msg herr; rw [herr]; exact ⟨rfl, rfl⟩

/-- C8 witness: a completing body returns 0 and a raising body returns -1
with its message retrievable. -/
theorem apiCall_return_discipline_witness :
    apiCall (.ok ()) ⟨"old"⟩ = (0, ⟨"old"⟩) ∧
    (apiCall (.error "boom") ⟨"old"⟩).1 = -1 ∧
    mxGetLastError (apiCall (.error "boom") ⟨"old"⟩).2 = "boom" :=
  ⟨(apiCall_return_discipline (.ok ()) ⟨"old"⟩).1 rfl,
    (apiCall_return_discipline (.error "boom") ⟨"old"⟩).2 "boom" rfl⟩

/-- C9: on a handle in the "none" state, every accessor succeeds with a
sentinel: `MXNArrayGetShape` reports dimension count 0, `MXNArrayGetContext`
reports device kind 0 and index 0, and `MXNArrayGetData` reports a null
data pointer. -/
theorem none_state_accessors (pdata₀ : Option (List Nat)) (c : Bool)
    (p₀ : DataPtr) :
    mxnArrayGetShape none pdata₀ = (0, 0, pdata₀) ∧
    mxnArrayGetContext none = (0, 0, 0) ∧
    mxnArrayGetData none c p₀ = (0, .null) :=
  ⟨rfl, rfl, rfl⟩

/-- C10: on a non-none handle, `MXNArrayGetData` fails (returns -1,
leaving the out-parameter untouched) whenever the handle's device kind is
not the CPU mask or its buffer is not contiguous, and returns the handle's
data exactly when the handle is on CPU with contiguous storage. -/
theorem getData_requires_cpu_contiguous (d : NArrayData) (c : Bool)
    (p₀ : DataPtr) :
    ((d.ctx.dev_mask ≠ cpuDevMask ∨ c = false) →
      mxnArrayGetData (some d) c p₀ = (-1, p₀)) ∧
    (d.ctx.dev_mask = cpuDevMask → c = true →
      mxnArrayGetData (some d) c p₀ = (0, .ptr d.elems)) := by
  constructor
  · intro hbad
    simp only [mxnArrayGetData]
    rcases hbad with hmask | hc
    · rw [if_neg hmask]
    · by_cases hmask : d.ctx.dev_mask = cpuDevMask
      · rw [if_pos hmask, hc, if_neg (by simp)]
      · rw [if_neg hmask]
  · intro hmask hc
    simp only [mxnArrayGetData]
    rw [if_pos hmask, hc, if_pos rfl]

/-- C10 witness: a GPU-resident handle is rejected with the out-parameter
untouched, and a CPU contiguous handle returns its data. -/
theorem getData_requires_cpu_contiguous_witness :
    mxnArrayGetData (some ⟨⟨[1]⟩, ⟨2, 0⟩, [7]⟩) true .null = (-1, .null) ∧
    mxnArrayGetData (some ⟨⟨[1]⟩, ⟨1, 0⟩, [7]⟩) true .null = (0, .ptr [7]) :=
  ⟨(getData_requires_cpu_contiguous ⟨⟨[1]⟩, ⟨2, 0⟩, [7]⟩ true .null).1
      (by left; decide),
    (getData_requires_cpu_contiguous ⟨⟨[1]⟩, ⟨1, 0⟩, [7]⟩ true .null).2
      rfl rfl⟩

end MXNet
